import Mathlib

/-!
Verification of the field transformation harness of `src/pyo3_tests/src/exp5.rs`.

The harness (`transform_with_custom_code`) owns a fixed prelude script that
defines a `FieldTransformer` class and binds an instance to `field_transformer`,
concatenates the prelude with caller-supplied custom code (separated by a single
newline), executes the combined script in a freshly created, empty variable
scope, and extracts the variable `output` from the resulting scope.

The script execution engine itself (CPython, reached through `py.run`) is an
external collaborator; following the specification it is modelled here as a
small line-oriented interpreter that supports exactly the script forms the
harness's prelude and the documented scenarios use: blank lines, `import`
statements, the class definition of the prelude (binding a transformation
capability whose single operation upper-cases a string), `print(...)`
statements, and assignments of simple expressions (string literals, integer
literals, variables, constructor calls, and `<obj>.to_upper(<arg>)` calls).
Scripts outside this fragment fail with a syntax error, undefined variables
fail with a name error, exactly as the specification's ExecutionFailure
taxonomy describes.
-/

namespace Exp5

/-- Python values that can appear in an execution scope in the modelled
fragment: strings, integers, the transformer class, and a transformer
instance. -/
inductive PyValue
  | str (s : String)
  | int (n : Int)
  | cls
  | transformer
deriving Repr, DecidableEq

/-- Modelled from the spec: upper-casing, the single operation of the
transformation capability ("given a string, return its upper-cased form"). -/
def upperCase (s : String) : String := String.mk (s.data.map Char.toUpper)

/-- The string representation of a value, as printed by the harness. -/
def PyValue.toStr : PyValue → String
  | .str s => s
  | .int n => toString n
  | .cls => "<class FieldTransformer>"
  | .transformer => "<FieldTransformer instance>"

/-- An execution scope: the `locals` dictionary of one invocation, newest
binding first. -/
abbrev Scope := List (String × PyValue)

/-- Look up a variable in a scope (the spec's `lookup(scope, name)`). -/
def lookupVar : Scope → String → Option PyValue
  | [], _ => none
  | (k, v) :: rest, n => if k = n then some v else lookupVar rest n

/-- Bind a variable in a scope (assignment mutates the locals dictionary). -/
def bindVar (sc : Scope) (k : String) (v : PyValue) : Scope := (k, v) :: sc

/-- Failures of the script execution engine (the spec's ExecutionFailure
taxonomy: parse failures and raised errors such as undefined references). -/
inductive PyErr
  | syntaxError (line : String)
  | indentationError (line : String)
  | nameError (name : String)
  | typeError
deriving Repr, DecidableEq

/-- The single quote character used by string literals of the scripts. -/
def quoteChar : Char := Char.ofNat 39

/-- A one-character string holding the quote character. -/
def quoteS : String := String.singleton quoteChar

/-- Characters allowed in identifiers. -/
def isIdentChar (c : Char) : Bool := c.isAlphanum || c == '_'

/-- Expressions of the modelled script fragment. -/
inductive Expr
  | lit (v : PyValue)
  | var (name : String)
  | callCls (name : String)
  | toUpper (name : String) (arg : Expr)
deriving Repr, DecidableEq

/-- Numeric value of a digit string. -/
def digitsToNat (l : List Char) : Nat := l.foldl (fun a c => a * 10 + (c.toNat - 48)) 0

/-- The characters of a `.to_upper(` method-call suffix. -/
def toUpperCall : List Char := ".to_upper(".toList

/-- Parse a primary expression (string literal, integer literal, or variable)
from the front of a character list, returning the remainder. -/
def parsePrimary (cs : List Char) : Option (Expr × List Char) :=
  match cs with
  | [] => none
  | c :: rest =>
    if c = quoteChar then
      let body := rest.takeWhile (fun x => x != quoteChar)
      let rem := rest.dropWhile (fun x => x != quoteChar)
      match rem with
      | _ :: rem2 => some (.lit (.str (String.mk body)), rem2)
      | [] => none
    else
      let id := cs.takeWhile isIdentChar
      let rest2 := cs.dropWhile isIdentChar
      if id.isEmpty then none
      else if id.all Char.isDigit then some (.lit (.int (digitsToNat id)), rest2)
      else some (.var (String.mk id), rest2)

/-- Parse a whole expression: a primary, a constructor call `Name()`, or a
method call `name.to_upper(primary)`.  The whole input must be consumed. -/
def parseExprCs (cs : List Char) : Option Expr :=
  match parsePrimary cs with
  | none => none
  | some (e, []) => some e
  | some (.var id, rem) =>
    if rem = ['(', ')'] then some (.callCls id)
    else if toUpperCall.isPrefixOf rem then
      match parsePrimary (rem.drop toUpperCall.length) with
      | some (arg, [')']) => some (.toUpper id arg)
      | _ => none
    else none
  | some (_, _) => none

/-- Evaluate an expression in a scope.  Undefined variables raise a name
error; calling `to_upper` of the transformer upper-cases its string argument. -/
def evalExpr (sc : Scope) : Expr → Except PyErr PyValue
  | .lit v => .ok v
  | .var n =>
    match lookupVar sc n with
    | some v => .ok v
    | none => .error (.nameError n)
  | .callCls n =>
    match lookupVar sc n with
    | some .cls => .ok .transformer
    | some _ => .error .typeError
    | none => .error (.nameError n)
  | .toUpper n arg =>
    match lookupVar sc n with
    | some .transformer =>
      (match evalExpr sc arg with
       | .ok (.str t) => .ok (.str (upperCase t))
       | .ok _ => .error .typeError
       | .error e => .error e)
    | some _ => .error .typeError
    | none => .error (.nameError n)

/-- Parse an assignment statement `name = expr`, returning the target name and
the unparsed expression characters. -/
def parseAssign (l : List Char) : Option (String × List Char) :=
  let id := l.takeWhile isIdentChar
  let rest := l.dropWhile isIdentChar
  if id.isEmpty then none
  else
    match rest.dropWhile (fun c => c == ' ') with
    | '=' :: rest2 =>
      if rest2.head? == some '=' then none
      else some (String.mk id, rest2.dropWhile (fun c => c == ' '))
    | _ => none

/-- Recognise an `import` statement (its only effect in the modelled fragment
is importing a module the scripts never use). -/
def isImportLine (l : List Char) : Bool :=
  "import ".toList.isPrefixOf l && !(l.drop 7).isEmpty && (l.drop 7).all isIdentChar

/-- Recognise a `class Name:` header, returning the class name. -/
def parseClassLine (l : List Char) : Option String :=
  if "class ".toList.isPrefixOf l then
    let id := (l.drop 6).takeWhile isIdentChar
    if id.isEmpty then none
    else if (l.drop 6).dropWhile isIdentChar = [':'] then some (String.mk id)
    else none
  else none

/-- Recognise a `print(expr)` statement, returning the printed expression. -/
def parsePrintLine (l : List Char) : Option Expr :=
  if "print(".toList.isPrefixOf l && ((l.drop 6).getLast? == some ')') then
    parseExprCs (l.drop 6).dropLast
  else none

/-- A line consisting only of spaces (ignored by the tokenizer). -/
def isBlank (l : List Char) : Bool := l.all (fun c => c == ' ')

/-- Interpreter mode: at top level, or inside the indented body of a class
definition. -/
inductive PyMode
  | top
  | body

/-- Execute the lines of a script against a scope.  Blank lines are skipped,
indented lines are legal only inside a class body, and every other line is an
assignment, an `import`, a class header, or a `print` statement; anything else
is a syntax error. -/
def execLinesGo : PyMode → List (List Char) → Scope → Except PyErr Scope
  | _, [], sc => .ok sc
  | mode, l :: rest, sc =>
    if isBlank l then execLinesGo mode rest sc
    else if l.head? == some ' ' then
      match mode with
      | .body => execLinesGo .body rest sc
      | .top => .error (.indentationError (String.mk l))
    else
      match parseAssign l with
      | some (x, ecs) =>
        match parseExprCs ecs with
        | some e =>
          match evalExpr sc e with
          | .ok v => execLinesGo .top rest (bindVar sc x v)
          | .error er => .error er
        | none => .error (.syntaxError (String.mk l))
      | none =>
        if isImportLine l then execLinesGo .top rest sc
        else
          match parseClassLine l with
          | some cname => execLinesGo .body rest (bindVar sc cname .cls)
          | none =>
            match parsePrintLine l with
            | some e =>
              match evalExpr sc e with
              | .ok _ => execLinesGo .top rest sc
              | .error er => .error er
            | none => .error (.syntaxError (String.mk l))

/-- Split a character list into lines at newline characters. -/
def splitLines : List Char → List (List Char)
  | [] => [[]]
  | c :: cs =>
    if c = '\n' then [] :: splitLines cs
    else
      match splitLines cs with
      | [] => [[c]]
      | l :: ls => (c :: l) :: ls

/-- Modelled from the spec: the script execution engine's
`execute(context, script, scope)` (reached in the source through `py.run`),
which runs the script's lines against the given variable scope. -/
def pyRun (script : String) (locals : Scope) : Except PyErr Scope :=
  execLinesGo PyMode.top (splitLines script.data) locals

/-- The prelude: the exact string constant `field_transformer_code` of
`transform_with_custom_code` in `exp5.rs`. -/
def field_transformer_code : String :=
  "\n\nimport hashlib\nclass FieldTransformer:\n    def to_upper(self, value: str) -> str:\n        return value.upper()\nfield_transformer = FieldTransformer()\n    "

/-- The combined script: `format!("{}\n{}", field_transformer_code, custom_code)`
of the source, prelude first, a single newline between. -/
def run_code (custom_code : String) : String :=
  field_transformer_code ++ "\n" ++ custom_code

/-- The fresh, empty locals dictionary created by each invocation
(`PyDict::new(py)` in the source). -/
def emptyLocals : Scope := []

/-- Failures of one harness invocation: the combined script failed to run
(ExecutionFailure), or it ran but never bound `output` (MissingOutput). -/
inductive TransformError
  | executionFailure (e : PyErr)
  | missingOutput
deriving Repr, DecidableEq

/-- Run a script in a fresh empty scope and extract the variable `output`.
The source unwraps both failure points (`py.run(..).unwrap()` and
`locals.get_item("output").unwrap()`); following the spec's contract they are
surfaced as an explicit error result instead of a process crash. -/
def runAndExtract (script : String) : Except TransformError String :=
  match pyRun script emptyLocals with
  | .error e => .error (.executionFailure e)
  | .ok locals =>
    match lookupVar locals "output" with
    | none => .error .missingOutput
    | some v => .ok (PyValue.toStr v)

/-- The harness of `exp5.rs`: concatenate the prelude with the custom code,
execute the combined script in a freshly created empty scope, and extract
`output`. -/
def transform_with_custom_code (custom_code : String) : Except TransformError String :=
  runAndExtract (run_code custom_code)

/-- Custom code that assigns `output = field_transformer.to_upper('s')` for a
given payload string `s`. -/
def mkToUpperCode (s : String) : String :=
  "output = field_transformer.to_upper(" ++ (quoteS ++ (s ++ (quoteS ++ ")")))

/-- The scope produced by executing the prelude alone in an empty scope. -/
def preludeScope : Scope :=
  [("field_transformer", PyValue.transformer), ("FieldTransformer", PyValue.cls)]

/-- A sequence of independent harness invocations. -/
def transformSeq (cs : List String) : List (Except TransformError String) :=
  cs.map transform_with_custom_code

/-- Two freshly created harness instances invoked with the same custom code. -/
def runTwoFresh (c : String) : Except TransformError String × Except TransformError String :=
  (transform_with_custom_code c, transform_with_custom_code c)

/-- The spec's first end-to-end scenario: custom code that never assigns
`output`. -/
def xEq1 : String := "x = 1"

/-- Custom code referencing a variable bound by an earlier invocation. -/
def outEqX : String := "output = x"

/-- Syntactically invalid custom code. -/
def badCode : String := "???"

/-- The characters of the upper-casing scenario's custom code that follow the
opening quote of the string literal: the payload, the closing quote, and the
closing parenthesis. -/
def litTail (s : String) : List Char := s.data ++ [quoteChar, ')']

/-- The characters of the upper-casing scenario's custom code that follow the
receiver identifier and the dot: the method call around the quoted payload. -/
def callTail (s : String) : List Char := "to_upper(".toList ++ quoteChar :: litTail s

/-- The characters of the upper-casing scenario's right-hand side expression. -/
def exprChars (s : String) : List Char := "field_transformer".toList ++ '.' :: callTail s

/-- `takeWhile` stops exactly at the first element falsifying the predicate. -/
theorem takeWhile_append_cons (p : Char → Bool) (A : List Char) (b : Char) (B : List Char)
    (hA : ∀ a ∈ A, p a = true) (hb : p b = false) :
    (A ++ b :: B).takeWhile p = A := by
  induction A with
  | nil => simp [List.takeWhile_cons, hb]
  | cons c A ih =>
    have hc : p c = true := hA c (by simp)
    simp only [List.cons_append, List.takeWhile_cons, hc, if_true, List.cons.injEq, true_and]
    exact ih (fun a ha => hA a (by simp [ha]))

/-- `dropWhile` drops exactly up to the first element falsifying the predicate. -/
theorem dropWhile_append_cons (p : Char → Bool) (A : List Char) (b : Char) (B : List Char)
    (hA : ∀ a ∈ A, p a = true) (hb : p b = false) :
    (A ++ b :: B).dropWhile p = b :: B := by
  induction A with
  | nil => simp [List.dropWhile_cons, hb]
  | cons c A ih =>
    have hc : p c = true := hA c (by simp)
    simp only [List.cons_append, List.dropWhile_cons, hc, if_true]
    exact ih (fun a ha => hA a (by simp [ha]))

/-- Splitting into lines never produces an empty list of lines. -/
theorem splitLines_ne_nil (l : List Char) : splitLines l ≠ [] := by
  induction l with
  | nil => simp [splitLines]
  | cons c cs ih =>
    simp only [splitLines]
    split
    · simp
    · split
      · simp
      · simp

/-- Prepending a newline starts a fresh empty line. -/
theorem splitLines_cons_newline (x : List Char) :
    splitLines ('\n' :: x) = [] :: splitLines x := by
  simp [splitLines]

/-- Prepending an ordinary character extends the first line. -/
theorem splitLines_cons_other (c : Char) (hc : ¬ c = '\n') (x : List Char) :
    splitLines (c :: x)
      = match splitLines x with
        | [] => [[c]]
        | l :: ls => (c :: l) :: ls := by
  simp [splitLines, hc]

/-- Splitting distributes over a newline separator. -/
theorem splitLines_append (a b : List Char) :
    splitLines (a ++ '\n' :: b) = splitLines a ++ splitLines b := by
  induction a with
  | nil => simp [splitLines]
  | cons c cs ih =>
    rw [List.cons_append]
    by_cases hc : c = '\n'
    · subst hc
      rw [splitLines_cons_newline, splitLines_cons_newline, ih, List.cons_append]
    · rw [splitLines_cons_other c hc, splitLines_cons_other c hc, ih]
      cases h : splitLines cs with
      | nil => exact absurd h (splitLines_ne_nil cs)
      | cons l ls => simp

/-- A newline-free character list is a single line. -/
theorem splitLines_no_newline (l : List Char) (h : '\n' ∉ l) : splitLines l = [l] := by
  induction l with
  | nil => rfl
  | cons c cs ih =>
    have hc : ¬ c = '\n' := fun e => h (by simp [e])
    have ih2 := ih (fun hm => h (by simp [hm]))
    simp [splitLines, hc, ih2]

/-- A list is a prefix of itself followed by anything. -/
theorem isPrefixOf_append_self (l t : List Char) : l.isPrefixOf (l ++ t) = true := by
  induction l with
  | nil => simp
  | cons c cs ih => simp [List.isPrefixOf_cons₂, ih]

/-- Executing the combined script first executes the prelude: from the empty
scope it binds the class and the `field_transformer` instance, then the
remaining lines run in the resulting scope. -/
theorem prelude_exec (rest : List (List Char)) :
    execLinesGo PyMode.top (splitLines field_transformer_code.data ++ rest) emptyLocals
      = execLinesGo PyMode.top rest preludeScope := rfl

/-- Running the combined script in a fresh empty scope is the same as running
the custom code's lines in the prelude scope. -/
theorem pyRun_run_code (c : String) :
    pyRun (run_code c) emptyLocals
      = execLinesGo PyMode.top (splitLines c.data) preludeScope := by
  have h : (run_code c).data = field_transformer_code.data ++ ('\n' :: c.data) := by
    show (field_transformer_code ++ "\n" ++ c).data = _
    rw [String.data_append, String.data_append]
    rw [show ("\n" : String).data = ['\n'] from rfl]
    simp
  show execLinesGo PyMode.top (splitLines (run_code c).data) emptyLocals = _
  rw [h, splitLines_append]
  exact prelude_exec _

/-- The characters of the upper-casing scenario's custom code: the assignment
target `output`, the equals sign, and the right-hand side expression. -/
theorem mkToUpperCode_data (s : String) :
    (mkToUpperCode s).data = "output".toList ++ ' ' :: '=' :: ' ' :: exprChars s := by
  show ("output = field_transformer.to_upper(" ++ (quoteS ++ (s ++ (quoteS ++ ")")))).data = _
  rw [String.data_append, String.data_append, String.data_append, String.data_append]
  rw [show ("output = field_transformer.to_upper(" : String).data
        = "output".toList ++ ' ' :: '=' :: ' ' :: ("field_transformer".toList
            ++ '.' :: "to_upper(".toList) from rfl]
  rw [show quoteS.data = [quoteChar] from rfl, show (")" : String).data = [')'] from rfl]
  simp [exprChars, callTail, litTail, List.append_assoc]

/-- Every character of the payload is distinct from the quote character. -/
theorem payload_all_not_quote (s : String) (hq : quoteChar ∉ s.data) :
    ∀ a ∈ s.data, (a != quoteChar) = true := by
  intro a ha
  simp only [bne_iff_ne, ne_eq]
  exact fun e => hq (e ▸ ha)

/-- Parsing the scenario's string literal yields the payload, with the closing
parenthesis left over. -/
theorem parsePrimary_lit (s : String) (hq : quoteChar ∉ s.data) :
    parsePrimary (quoteChar :: litTail s) = some (Expr.lit (PyValue.str s), [')']) := by
  simp only [parsePrimary, if_true]
  rw [show litTail s = s.data ++ quoteChar :: [')'] from rfl]
  rw [takeWhile_append_cons (fun x => x != quoteChar) s.data quoteChar [')']
        (payload_all_not_quote s hq) (by simp)]
  rw [dropWhile_append_cons (fun x => x != quoteChar) s.data quoteChar [')']
        (payload_all_not_quote s hq) (by simp)]

/-- Parsing the scenario's expression starts with the receiver identifier. -/
theorem parsePrimary_exprChars (s : String) :
    parsePrimary (exprChars s)
      = some (Expr.var "field_transformer", '.' :: callTail s) := by
  rw [show exprChars s
        = 'f' :: ("ield_transformer".toList ++ '.' :: callTail s) from rfl]
  simp only [parsePrimary]
  rw [if_neg (show ¬ ('f' : Char) = quoteChar from by decide)]
  rw [show ('f' : Char) :: ("ield_transformer".toList ++ '.' :: callTail s)
        = "field_transformer".toList ++ '.' :: callTail s from rfl]
  rw [takeWhile_append_cons isIdentChar ("field_transformer".toList) '.' (callTail s)
        (by decide) (by decide)]
  rw [dropWhile_append_cons isIdentChar ("field_transformer".toList) '.' (callTail s)
        (by decide) (by decide)]
  rw [show ("field_transformer".toList).isEmpty = false from rfl]
  rw [show ("field_transformer".toList).all Char.isDigit = false from rfl]
  simp [show String.mk "field_transformer".toList = "field_transformer" from rfl]

/-- Parsing the scenario's full expression yields the `to_upper` method call
on the string literal payload. -/
theorem parseExprCs_exprChars (s : String) (hq : quoteChar ∉ s.data) :
    parseExprCs (exprChars s)
      = some (Expr.toUpper "field_transformer" (Expr.lit (PyValue.str s))) := by
  simp only [parseExprCs, parsePrimary_exprChars s]
  rw [if_neg (show ¬ (('.' : Char) :: callTail s = ['(', ')']) from by
    intro h
    injection h with h1 h2
    exact absurd h1 (by decide))]
  rw [show ('.' : Char) :: callTail s = toUpperCall ++ quoteChar :: litTail s from rfl]
  rw [isPrefixOf_append_self toUpperCall (quoteChar :: litTail s)]
  rw [List.drop_left]
  rw [parsePrimary_lit s hq]
  simp

/-- Parsing the scenario's line yields the assignment to `output`. -/
theorem parseAssign_line (s : String) :
    parseAssign ((mkToUpperCode s).data) = some ("output", exprChars s) := by
  rw [mkToUpperCode_data]
  rfl

/-- Executing an assignment line at top level binds the assigned variable to
the value of the right-hand side expression. -/
theorem execLinesGo_assign (l ecs : List Char) (rest : List (List Char)) (sc : Scope)
    (x : String) (e : Expr) (v : PyValue)
    (hblank : isBlank l = false) (hhead : (l.head? == some ' ') = false)
    (hassign : parseAssign l = some (x, ecs)) (hexpr : parseExprCs ecs = some e)
    (heval : evalExpr sc e = Except.ok v) :
    execLinesGo PyMode.top (l :: rest) sc
      = execLinesGo PyMode.top rest (bindVar sc x v) := by
  simp only [execLinesGo, hblank, hhead, hassign, hexpr, heval, Bool.false_eq_true, if_false]

/-- No character of the scenario line is a newline when the payload is
newline-free. -/
theorem mkToUpperCode_no_newline (s : String) (hn : '\n' ∉ s.data) :
    '\n' ∉ (mkToUpperCode s).data := by
  rw [mkToUpperCode_data]
  intro hmem
  simp only [exprChars, callTail, litTail, List.mem_append, List.mem_cons] at hmem
  rcases hmem with h | h | h | h | h | h | h | h | h
  · exact absurd h (by decide)
  · exact absurd h (by decide)
  · exact absurd h (by decide)
  · exact absurd h (by decide)
  · exact absurd h (by decide)
  · exact absurd h (by decide)
  · exact absurd h (by decide)
  · exact absurd h (by decide)
  · rcases h with h | h | h | h
    · exact hn h
    · exact absurd h (by decide)
    · exact absurd h (by decide)
    · exact absurd h (by simp)

/-- Executing the scenario's single line in the prelude scope binds `output`
to the upper-cased payload. -/
theorem exec_toUpper_line (s : String) (hq : quoteChar ∉ s.data) :
    execLinesGo PyMode.top [(mkToUpperCode s).data] preludeScope
      = Except.ok (bindVar preludeScope "output" (PyValue.str (upperCase s))) := by
  rw [execLinesGo_assign ((mkToUpperCode s).data) (exprChars s) [] preludeScope
        "output" (Expr.toUpper "field_transformer" (Expr.lit (PyValue.str s)))
        (PyValue.str (upperCase s))
        (by rw [mkToUpperCode_data]; rfl)
        (by rw [mkToUpperCode_data]; rfl)
        (parseAssign_line s)
        (parseExprCs_exprChars s hq)
        rfl]
  rfl

/-- Claim C1: for every non-empty string `s` (writable as a quoted literal of
the script fragment, i.e. containing no quote and no newline), invoking
`transform_with_custom_code` with custom code that assigns
`output = field_transformer.to_upper('s')` yields the upper-cased form of `s`;
in particular for `output = field_transformer.to_upper('hello')` the harness
produces `HELLO`. -/
theorem C1_to_upper :
    (∀ s : String, s ≠ "" → quoteChar ∉ s.data → '\n' ∉ s.data →
        transform_with_custom_code (mkToUpperCode s) = Except.ok (upperCase s))
    ∧ transform_with_custom_code (mkToUpperCode "hello") = Except.ok "HELLO" := by
  refine ⟨fun s hne hq hn => ?_, rfl⟩
  show runAndExtract (run_code (mkToUpperCode s)) = _
  simp only [runAndExtract]
  rw [pyRun_run_code]
  rw [splitLines_no_newline ((mkToUpperCode s).data) (mkToUpperCode_no_newline s hn)]
  rw [exec_toUpper_line s hq]
  rfl

/-- Witness for C1 at the concrete payload `hello`. -/
theorem C1_witness :
    transform_with_custom_code (mkToUpperCode "hello") = Except.ok "HELLO" := by
  have h := C1_to_upper.1 "hello" (by decide) (by decide) (by decide)
  rw [h]
  rfl

/-- Claim C2: for every custom_code string, the combined script executed by
`transform_with_custom_code` is exactly the fixed prelude followed by the
custom code, prelude first, joined by a single newline character. -/
theorem C2_combined_script :
    (∀ c : String, run_code c = field_transformer_code ++ "\n" ++ c)
    ∧ (∀ c : String, transform_with_custom_code c = runAndExtract (run_code c)) :=
  ⟨fun _ => rfl, fun _ => rfl⟩

/-- The scope left by the prelude followed by `x = 1`. -/
def xEq1Scope : Scope :=
  [("x", PyValue.int 1),
   ("field_transformer", PyValue.transformer), ("FieldTransformer", PyValue.cls)]

/-- Claim C3: custom code that never assigns `output` fails with MissingOutput,
a lookup failure distinct from ExecutionFailure and never coerced to a default
value; concretely `x = 1` reports MissingOutput. -/
theorem C3_missing_output :
    (∀ (c : String) (sc : Scope),
        pyRun (run_code c) emptyLocals = Except.ok sc →
        lookupVar sc "output" = none →
        transform_with_custom_code c = Except.error TransformError.missingOutput)
    ∧ transform_with_custom_code xEq1 = Except.error TransformError.missingOutput
    ∧ (∀ e : PyErr, TransformError.missingOutput ≠ TransformError.executionFailure e) := by
  refine ⟨fun c sc h1 h2 => ?_, rfl, fun e h => TransformError.noConfusion h⟩
  simp [transform_with_custom_code, runAndExtract, h1, h2]

/-- Witness for C3 at the concrete input `x = 1`. -/
theorem C3_witness :
    transform_with_custom_code xEq1 = Except.error TransformError.missingOutput :=
  C3_missing_output.1 xEq1 xEq1Scope rfl rfl

/-- Claim C4: if the combined script fails to parse or raises during execution,
the invocation fails with an ExecutionFailure propagated to the caller, which
is distinguishable from MissingOutput; concretely the syntactically invalid
custom code `???` fails this way. -/
theorem C4_execution_failure :
    (∀ (c : String) (e : PyErr),
        pyRun (run_code c) emptyLocals = Except.error e →
        transform_with_custom_code c = Except.error (TransformError.executionFailure e))
    ∧ transform_with_custom_code badCode
        = Except.error (TransformError.executionFailure (PyErr.syntaxError "???"))
    ∧ (∀ e : PyErr, TransformError.executionFailure e ≠ TransformError.missingOutput) := by
  refine ⟨fun c e h1 => ?_, rfl, fun e h => TransformError.noConfusion h⟩
  simp [transform_with_custom_code, runAndExtract, h1]

/-- Witness for C4 at the concrete input `???`. -/
theorem C4_witness :
    transform_with_custom_code badCode
      = Except.error (TransformError.executionFailure (PyErr.syntaxError "???")) :=
  C4_execution_failure.1 badCode (PyErr.syntaxError "???") rfl

/-- Claim C5: every invocation runs in a freshly created empty scope and the
harness holds no state between invocations: the result of each invocation in
a sequence depends only on its own custom code, and a variable bound by one
invocation (`x = 1` binds `x`) is not visible in a later invocation, whose
reference to `x` fails with a name error instead. -/
theorem C5_isolation :
    (∀ (history : List String) (c : String),
        transformSeq (history ++ [c])
          = transformSeq history ++ [transform_with_custom_code c])
    ∧ (∃ sc : Scope, pyRun (run_code xEq1) emptyLocals = Except.ok sc
        ∧ lookupVar sc "x" = some (PyValue.int 1))
    ∧ transform_with_custom_code outEqX
        = Except.error (TransformError.executionFailure (PyErr.nameError "x")) := by
  refine ⟨fun history c => ?_, ⟨xEq1Scope, rfl, rfl⟩, rfl⟩
  simp [transformSeq]

/-- Claim C6: after executing the combined script, the harness looks up the
variable `output` in the resulting scope and produces the bound value's string
representation. -/
theorem C6_output_lookup (c : String) (sc : Scope) (v : PyValue)
    (h1 : pyRun (run_code c) emptyLocals = Except.ok sc)
    (h2 : lookupVar sc "output" = some v) :
    transform_with_custom_code c = Except.ok (PyValue.toStr v) := by
  simp [transform_with_custom_code, runAndExtract, h1, h2]

/-- The scope left by the prelude followed by the upper-casing scenario. -/
def helloScope : Scope :=
  [("output", PyValue.str "HELLO"),
   ("field_transformer", PyValue.transformer), ("FieldTransformer", PyValue.cls)]

/-- Witness for C6 at the concrete upper-casing scenario. -/
theorem C6_witness :
    transform_with_custom_code (mkToUpperCode "hello")
      = Except.ok (PyValue.toStr (PyValue.str "HELLO")) :=
  C6_output_lookup (mkToUpperCode "hello") helloScope (PyValue.str "HELLO") rfl rfl

/-- Claim C7: the prelude is a fixed string constant whose execution defines
the transformation capability and binds it to `field_transformer`: running the
prelude alone succeeds and binds `field_transformer` to the transformer, the
transformer's single operation upper-cases its string argument, and in every
invocation the prelude executes before the caller's custom code does. -/
theorem C7_prelude :
    (∃ sc : Scope, pyRun field_transformer_code emptyLocals = Except.ok sc
        ∧ lookupVar sc "field_transformer" = some PyValue.transformer)
    ∧ (∀ s : String,
        evalExpr preludeScope (Expr.toUpper "field_transformer" (Expr.lit (PyValue.str s)))
          = Except.ok (PyValue.str (upperCase s)))
    ∧ (∀ c : String,
        pyRun (run_code c) emptyLocals
          = execLinesGo PyMode.top (splitLines c.data) preludeScope) :=
  ⟨⟨preludeScope, rfl, rfl⟩, fun _ => rfl, pyRun_run_code⟩

/-- Claim C8: invoking the harness twice with the same custom code, each on a
freshly created instance, yields identical results. -/
theorem C8_deterministic :
    ∀ c : String, (runTwoFresh c).1 = (runTwoFresh c).2 :=
  fun _ => rfl

/-- Claim C9: under the precondition that the combined script executes without
error and binds `output`, neither failure branch of the invocation is taken:
the invocation returns a value and cannot panic. -/
theorem C9_no_panic (c : String) (sc : Scope) (v : PyValue)
    (h1 : pyRun (run_code c) emptyLocals = Except.ok sc)
    (h2 : lookupVar sc "output" = some v) :
    ∃ r : String, transform_with_custom_code c = Except.ok r := by
  refine ⟨PyValue.toStr v, ?_⟩
  simp [transform_with_custom_code, runAndExtract, h1, h2]

/-- Witness for C9 at the concrete upper-casing scenario. -/
theorem C9_witness :
    ∃ r : String, transform_with_custom_code (mkToUpperCode "hello") = Except.ok r :=
  C9_no_panic (mkToUpperCode "hello") helloScope (PyValue.str "HELLO") rfl rfl

/-- Claim C10: for the empty custom code string the combined script (the
prelude alone followed by a newline) executes successfully but never binds
`output`, so the invocation fails with MissingOutput, not ExecutionFailure. -/
theorem C10_empty_custom_code :
    (∃ sc : Scope, pyRun (run_code "") emptyLocals = Except.ok sc
        ∧ lookupVar sc "output" = none)
    ∧ transform_with_custom_code "" = Except.error TransformError.missingOutput :=
  ⟨⟨preludeScope, rfl, rfl⟩, rfl⟩

end Exp5
